import Mathlib

/-!
Verification of the categorization / anomaly-detection core of the
personal-finance-widget-dash repository, as a shallow embedding in Lean 4.

The embedded functions mirror, definition by definition, the Python sources:

* `src/api/app/rules.py`                      : `evaluate_condition`, `apply_rules`
* `src/api/app/categorize.py`                 : `categorize_with_openai` (retry loop,
                                                response validation, `TAXONOMY`)
* `src/api/app/routers/categorize.py`         : the status decision
* `src/api/app/services/anomalies.py`         : `_detect_zscore_outliers`,
                                                `detect_anomalies` pass composition
* `src/api/app/services/vendor_normalize.py`  : `CLEANUP_PATTERNS`, `_clean_descriptor`
* `src/api/app/routers/ingest.py`             : the on-conflict upsert

Modelling conventions: Python numbers (`int`, `float`, `Decimal`) become `Int`/`ℚ`
(the values relevant to the claims are exactly representable); strings are over
the ASCII fragment; fallible code returns `Except`; the database session is
replaced by explicit lists of rows.  The external regex engine (`re.search`) is
abstracted as a pattern that is either `malformed` (the pattern raises
`re.error` at compile time) or a total matcher; `re.sub` over the concrete
`CLEANUP_PATTERNS` literals is implemented character by character.
-/

/-- A row of the `transactions` table (`src/api/app/models.py`, class
`Transaction`).  `posted_at` (a server-side timestamp default) is omitted;
dates are abstract day indices, amounts are minor-currency units. -/
structure Transaction where
  id : Int
  txn_date : Int
  amount_cents : Int
  currency : String
  direction : String
  raw_descriptor : String
  canonical_vendor : Option String
  mcc : Option String
  memo : Option String
  source_account : String
  hash_id : String
  receipt_url : Option String
  category : Option String
  subcategory : Option String
  confidence : Option ℚ
  status : String
  notes : Option String
deriving DecidableEq, Repr

/-- Python truthiness of an optional string: `None` and `""` are falsy. -/
def pyTruthy : Option String → Bool
  | none => false
  | some s => !(s == "")

/-- Python `a or b` on an optional string versus a fallback string
(`transaction.canonical_vendor or transaction.raw_descriptor`). -/
def pyStrOr (a : Option String) (b : String) : String :=
  match a with
  | none => b
  | some s => if s == "" then b else s

/-- `needle` is a leading segment of `hay`. -/
def charsLead : List Char → List Char → Bool
  | [], _ => true
  | _ :: _, [] => false
  | c :: cs, d :: ds => c == d && charsLead cs ds

/-- `needle` occurs as a contiguous segment of `hay` (Python `needle in hay`). -/
def charsContain (needle : List Char) : List Char → Bool
  | [] => needle.isEmpty
  | d :: ds => charsLead needle (d :: ds) || charsContain needle ds

/-- Lower-cased character list of a string (ASCII fragment of `str.lower()`). -/
def lowerChars (s : String) : List Char := s.toList.map Char.toLower

/-- The outcome of handing a pattern string to the regex engine: the engine
either rejects it at compile time (`re.error`, i.e. a malformed pattern) or
yields a total case-insensitive matcher against the descriptor.  This
abstracts `re.search(pattern, descriptor, re.IGNORECASE)`. -/
inductive RegexPattern where
  | valid (test : String → Bool)
  | malformed

/-- A rule condition tree: one recognized key per node, exactly as the JSONB
conditions documented and dispatched in `evaluate_condition`
(`src/api/app/rules.py`).  `unknown` stands for any unrecognized key. -/
inductive Cond where
  | and (cs : List Cond)
  | all (cs : List Cond)
  | or (cs : List Cond)
  | any (cs : List Cond)
  | contains (s : String)
  | regex (p : RegexPattern)
  | mcc (v : String)
  | mcc_in (vs : List String)
  | amount_range (lo hi : Int)
  | account (v : String)
  | direction (v : String)
  | unknown

/-- The errors `evaluate_condition` can raise: `typeErr` models the
`TypeError` Python raises when iterating `None` (which is what
`condition.get("and") or condition.get("all")` produces for `{"and": []}`,
the empty list being falsy); `invalidRegex` models the `ValueError` raised
for a malformed regex pattern. -/
inductive EvalErr where
  | typeErr
  | invalidRegex
deriving DecidableEq, Repr

mutual

/-- Embedding of `evaluate_condition` (`src/api/app/rules.py`, lines 109-195).

For `{"and": cs}` the code computes `condition.get("and") or condition.get("all")`;
when `cs` is the empty list this is `[] or None = None` and `all(... for c in None)`
raises `TypeError`, hence the `typeErr` branch.  For `{"all": cs}` the same
expression is `None or cs = cs`, so `{"all": []}` is `all([]) = True`.
Symmetrically for `or`/`any`. -/
def evaluate_condition (t : Transaction) : Cond → Except EvalErr Bool
  | Cond.and cs => if cs.isEmpty then Except.error EvalErr.typeErr else evalAllList t cs
  | Cond.all cs => evalAllList t cs
  | Cond.or cs => if cs.isEmpty then Except.error EvalErr.typeErr else evalAnyList t cs
  | Cond.any cs => evalAnyList t cs
  | Cond.contains s =>
      Except.ok (charsContain (lowerChars s) (lowerChars t.raw_descriptor))
  | Cond.regex p =>
      match p with
      | RegexPattern.valid f => Except.ok (f t.raw_descriptor)
      | RegexPattern.malformed => Except.error EvalErr.invalidRegex
  | Cond.mcc v =>
      Except.ok (if pyTruthy t.mcc then t.mcc == some v else false)
  | Cond.mcc_in vs =>
      Except.ok (if pyTruthy t.mcc then
        (match t.mcc with | some m => vs.contains m | none => false) else false)
  | Cond.amount_range lo hi =>
      Except.ok (decide (lo ≤ t.amount_cents ∧ t.amount_cents ≤ hi))
  | Cond.account v => Except.ok (t.source_account == v)
  | Cond.direction v => Except.ok (t.direction == v)
  | Cond.unknown => Except.ok false

/-- `all(evaluate_condition(t, c) for c in cs)`: short-circuits at the first
false sub-condition; an error in an evaluated sub-condition propagates. -/
def evalAllList (t : Transaction) : List Cond → Except EvalErr Bool
  | [] => Except.ok true
  | c :: cs => do
      let b ← evaluate_condition t c
      if b then evalAllList t cs else pure false

/-- `any(evaluate_condition(t, c) for c in cs)`: short-circuits at the first
true sub-condition; an error in an evaluated sub-condition propagates. -/
def evalAnyList (t : Transaction) : List Cond → Except EvalErr Bool
  | [] => Except.ok false
  | c :: cs => do
      let b ← evaluate_condition t c
      if b then pure true else evalAnyList t cs

end

/-- A rule action (`rules.action` JSONB): category plus optional subcategory. -/
structure RuleAction where
  category : String
  subcategory : Option String
deriving DecidableEq, Repr

/-- A row of the `rules` table (`src/api/app/models.py`, class `Rule`). -/
structure Rule where
  id : Int
  priority : Int
  condition : Cond
  action : RuleAction
  active : Bool

/-- Priority comparison used by `ORDER BY priority ASC`. -/
def rulePriorityLE (a b : Rule) : Prop := a.priority ≤ b.priority

instance : DecidableRel rulePriorityLE := fun a b => Int.decLe a.priority b.priority

instance : IsTotal Rule rulePriorityLE := ⟨fun a b => Int.le_total a.priority b.priority⟩

instance : IsTrans Rule rulePriorityLE := ⟨fun _ _ _ h h2 => le_trans h h2⟩

/-- The per-rule loop of `apply_rules`: evaluate each rule in order; return the
action of the first rule whose condition evaluates to true; a rule whose
evaluation raises is logged and skipped (`except Exception: ... continue`). -/
def findAction (t : Transaction) : List Rule → Option RuleAction
  | [] => none
  | r :: rs =>
      match evaluate_condition t r.condition with
      | Except.ok true => some r.action
      | _ => findAction t rs

/-- Embedding of `apply_rules` (`src/api/app/rules.py`, lines 20-106): fetch
the rules with `active = true` ordered ascending by `priority` (the SQL sort is
modelled by a sort of the filtered list; tie order is arbitrary in the source),
then scan for the first match, skipping rules whose evaluation raises. -/
def apply_rules (t : Transaction) (rules : List Rule) : Option RuleAction :=
  findAction t (List.insertionSort rulePriorityLE (rules.filter (fun r => r.active)))

/-- The fixed 20-entry taxonomy (`src/api/app/categorize.py`, `TAXONOMY`). -/
def TAXONOMY : List String :=
  ["Groceries", "Dining", "Transport", "Fuel", "Utilities", "Rent/Mortgage",
   "Internet", "Mobile", "Subscriptions", "Shopping", "Healthcare", "Pets",
   "Gifts/Charity", "Entertainment", "Travel-Air", "Travel-Hotel",
   "Travel-Other", "Income", "Transfers", "Savings"]

/-- A successfully parsed classifier JSON body: the four fields the code reads.
`category = none` covers both an absent field and JSON `null`; confidence is a
number (the code's `float(...)` coercion succeeds on the inputs modelled). -/
structure ParsedJson where
  category : Option String
  subcategory : Option String
  confidence : Option ℚ
  vendor : Option String

/-- The categorization result dict `{category, subcategory, confidence, vendor}`. -/
structure AIResult where
  category : String
  subcategory : Option String
  confidence : ℚ
  vendor : Option String
deriving DecidableEq, Repr

/-- The failure modes of `categorize_with_openai` that escape the function:
the timeout raised after the final attempt, the re-raised rate-limit error,
and the uncaught `ValueError` for a response without a truthy `category`. -/
inductive OpenAIFailure where
  | timeoutExhausted
  | rateLimited
  | missingCategory
deriving DecidableEq, Repr

/-- `max(0.0, min(1.0, confidence))` (`src/api/app/categorize.py`, line 170). -/
def clampConfidence (c : ℚ) : ℚ := max 0 (min 1 c)

/-- The range check of `_parse_openai_response` (lines 285-291): if a
`confidence` field is present and outside `[0, 1]`, it is clamped in place. -/
def parse_openai_response (r : ParsedJson) : ParsedJson :=
  match r.confidence with
  | some c =>
      if 0 ≤ c ∧ c ≤ 1 then r else { r with confidence := some (clampConfidence c) }
  | none => r

/-- The success-path validation of `categorize_with_openai` (lines 162-190):
parse, reject a falsy `category` (the raised `ValueError` is caught by none of
the loop's `except` clauses, so it escapes), coerce and clamp the confidence
(default 0.5 when absent), and override a category outside `TAXONOMY` with
`"Shopping"` at confidence exactly 0.50. -/
def processResponse (r0 : ParsedJson) : Except OpenAIFailure AIResult :=
  let r := parse_openai_response r0
  match r.category with
  | none => Except.error OpenAIFailure.missingCategory
  | some cat =>
      if cat = "" then Except.error OpenAIFailure.missingCategory
      else
        let conf := clampConfidence (r.confidence.getD (1/2))
        if cat ∈ TAXONOMY then
          Except.ok { category := cat, subcategory := r.subcategory,
                      confidence := conf, vendor := r.vendor }
        else
          Except.ok { category := "Shopping", subcategory := r.subcategory,
                      confidence := 1/2, vendor := r.vendor }

/-- The fixed default returned when JSON-decode or generic API errors are
exhausted (lines 213-218, 242-247 and the closing safety fallback). -/
def defaultAIResult (t : Transaction) : AIResult :=
  { category := "Shopping", subcategory := some "Uncategorized",
    confidence := 3/10, vendor := some (pyStrOr t.canonical_vendor t.raw_descriptor) }

/-- What a single loop iteration of `categorize_with_openai` observes from the
classifier call: a parsed response, or one of the four caught exception
classes (`asyncio.TimeoutError`, `json.JSONDecodeError`, `openai.RateLimitError`,
`openai.APIError`). -/
inductive AttemptOutcome where
  | success (r : ParsedJson)
  | timeout
  | jsonError
  | rateLimit
  | apiError

/-- Embedding of the retry loop of `categorize_with_openai`
(`src/api/app/categorize.py`, lines 129-256).  The list holds the outcome of
each of the `max_retries + 1` attempts in order; the last element is the
`attempt == max_retries` iteration.  On a non-final timeout / JSON error /
rate limit / API error the code sleeps and retries; on the final attempt a
timeout raises, a JSON or API error returns `defaultAIResult`, and a rate
limit re-raises.  An empty list corresponds to the unreachable fallthrough
after the loop, which also returns the default. -/
def categorize_with_openai (t : Transaction) : List AttemptOutcome → Except OpenAIFailure AIResult
  | [] => Except.ok (defaultAIResult t)
  | [o] =>
      match o with
      | AttemptOutcome.success r => processResponse r
      | AttemptOutcome.timeout => Except.error OpenAIFailure.timeoutExhausted
      | AttemptOutcome.jsonError => Except.ok (defaultAIResult t)
      | AttemptOutcome.rateLimit => Except.error OpenAIFailure.rateLimited
      | AttemptOutcome.apiError => Except.ok (defaultAIResult t)
  | o :: rest =>
      match o with
      | AttemptOutcome.success r => processResponse r
      | _ => categorize_with_openai t rest

/-- The status decision of the `/categorize` route
(`src/api/app/routers/categorize.py`, lines 104-110):
`needs_review = confidence < LOW_CONFIDENCE or amount_cents > REVIEW_AMOUNT_CENTS`. -/
def needs_review (lowConfidence : ℚ) (reviewAmountCents : Int)
    (confidence : ℚ) (amount_cents : Int) : Bool :=
  decide (confidence < lowConfidence ∨ amount_cents > reviewAmountCents)

/-- `transaction.status = "review" if needs_review else "finalized"` (line 110). -/
def decideStatus (lowConfidence : ℚ) (reviewAmountCents : Int)
    (confidence : ℚ) (amount_cents : Int) : String :=
  if needs_review lowConfidence reviewAmountCents confidence amount_cents
  then "review" else "finalized"

/-- An anomaly alert (`AlertOut` of `src/api/app/schemas.py`) restricted to the
structured fields the detectors set; the human-readable `message` text and the
free-form `metadata` dict are presentation and are omitted. -/
structure Alert where
  type : String
  vendor : Option String
  category : Option String
  amount_cents : Int
  date : Int
  severity : String
deriving DecidableEq, Repr

/-- Amounts of the in-window transactions of one category
(the per-category query of `_detect_zscore_outliers`; the `ORDER BY
amount_cents DESC` only affects presentation order and is not modelled). -/
def catTxns (txns : List Transaction) (c : String) : List Transaction :=
  txns.filter (fun t => t.category == some c)

/-- `np.mean` of a list of integer amounts, as an exact rational. -/
def meanQ (l : List Int) : ℚ := (l.sum : ℚ) / l.length

/-- `np.std` squared: the population variance of the amounts (the code takes
`np.std(amounts)` with the default `ddof=0`). -/
def popVar (l : List Int) : ℚ :=
  (l.map (fun a => ((a : ℚ) - meanQ l) * ((a : ℚ) - meanQ l))).sum / l.length

/-- Squared deviation of one amount from the mean `m`.  The code's test
`abs((amount - mean) / std) > thr` is equivalent, for `std > 0` and `thr ≥ 0`,
to `devSq amount m > thr² · variance`; squaring avoids the square root, which
is not rational, and is exact. -/
def devSq (amount : Int) (m : ℚ) : ℚ := ((amount : ℚ) - m) * ((amount : ℚ) - m)

/-- The alert built for a flagged transaction: severity `"high"` when the
z-score exceeds 3.0 (`devSq > 9 · variance`), else `"medium"` (lines 385-402). -/
def zAlert (c : String) (t : Transaction) (m v : ℚ) : Alert :=
  { type := "zscore_outlier", vendor := t.canonical_vendor, category := some c,
    amount_cents := t.amount_cents, date := t.txn_date,
    severity := if devSq t.amount_cents m > 9 * v then "high" else "medium" }

/-- The per-category body of `_detect_zscore_outliers`
(`src/api/app/services/anomalies.py`, lines 356-402): skip categories with
fewer than 5 in-window transactions or zero variance, then flag every
transaction whose squared deviation exceeds `thr² ·  variance`
(i.e. `|z| > thr`, with `thr = 2.0` at the call site). -/
def zscoreCategoryAlerts (ts : List Transaction) (c : String) (thr : ℚ) : List Alert :=
  if ts.length < 5 then []
  else if popVar (ts.map (fun t => t.amount_cents)) = 0 then []
  else ts.filterMap (fun t =>
    if devSq t.amount_cents (meanQ (ts.map (fun x => x.amount_cents))) >
        thr * thr * popVar (ts.map (fun x => x.amount_cents)) then
      some (zAlert c t (meanQ (ts.map (fun x => x.amount_cents)))
        (popVar (ts.map (fun x => x.amount_cents))))
    else none)

/-- Category values present in the window, each exactly once (the
`SELECT DISTINCT category ... WHERE category IS NOT NULL` of lines 342-353;
the order of distinct values is unspecified in the source query, and the
order `List.dedup` picks is as good as any). -/
def distinctCategories (txns : List Transaction) : List String :=
  (txns.filterMap (fun t => t.category)).dedup

/-- Embedding of `_detect_zscore_outliers` over the in-window transactions. -/
def detect_zscore_outliers (txns : List Transaction) (thr : ℚ) : List Alert :=
  (distinctCategories txns).flatMap (fun c => zscoreCategoryAlerts (catTxns txns c) c thr)

/-- What one detection pass does when run: either it completes with its list
of alerts, or its body raises after having appended `sofar` alerts.  The six
passes of `detect_anomalies` are modelled by their outcomes; which of them
contain an internal `try/except` is what claim C8 is about, and that structure
is in `detect_anomalies` below. -/
inductive PassResult where
  | ok (alerts : List Alert)
  | raises (sofar : List Alert)

/-- Running a pass with no internal exception handler (`detect_new_vendors`,
`detect_duplicates`, `detect_missing_receipts`, `detect_pending_review`):
an exception in the body propagates to the caller. -/
def runPlainPass : PassResult → Except Unit (List Alert)
  | PassResult.ok l => Except.ok l
  | PassResult.raises _ => Except.error ()

/-- Running a pass whose whole body sits inside `try/except Exception`
(`_detect_zscore_outliers`, `_detect_unusual_spending`): on an exception the
pass logs and returns the alerts accumulated so far. -/
def runCaughtPass : PassResult → List Alert
  | PassResult.ok l => l
  | PassResult.raises l => l

/-- Embedding of the pass composition of `detect_anomalies`
(`src/api/app/services/anomalies.py`, lines 59-83): the six passes run in
source order, extending one alert list; the surrounding `try/except` logs and
re-raises, so an escaping pass exception escapes `detect_anomalies` too. -/
def detect_anomalies (newVendors dups zscores unusual receipts pending : PassResult) :
    Except Unit (List Alert) := do
  let a1 ← runPlainPass newVendors
  let a2 ← runPlainPass dups
  let a3 := runCaughtPass zscores
  let a4 := runCaughtPass unusual
  let a5 ← runPlainPass receipts
  let a6 ← runPlainPass pending
  return a1 ++ a2 ++ a3 ++ a4 ++ a5 ++ a6

/-- Python's `\s` character class over the ASCII fragment. -/
def pySpace (c : Char) : Bool :=
  c == ' ' || c == '\t' || c == '\n' || c == '\x0b' || c == '\x0c' || c == '\r'

/-- `str.strip()` over the ASCII fragment. -/
def stripChars (l : List Char) : List Char :=
  ((l.dropWhile pySpace).reverse.dropWhile pySpace).reverse

/-- Consume the literal `pat` from the front of the input, returning the rest. -/
def stripLit : List Char → List Char → Option (List Char)
  | [], l => some l
  | _ :: _, [] => none
  | p :: ps, c :: cs => if p == c then stripLit ps cs else none

/-- The scan underlying `re.sub(pattern, rep, s)` for the patterns of
`CLEANUP_PATTERNS`: at each position try the matcher `f` (which returns the
input after the matched, non-empty prefix); on a match emit the replacement
and resume after the match, otherwise advance one character.  Every matcher
used consumes at least one character, so a fuel equal to the input length
never runs out (for `fuel ≥ l.length`, the fuel-exhausted branch is reached
only at `l = []`, where it also returns `[]`). -/
def reSub (f : List Char → Option (List Char)) (rep : List Char) : Nat → List Char → List Char
  | 0, l => l
  | fuel + 1, l =>
      match f l with
      | some r => rep ++ reSub f rep fuel r
      | none =>
        match l with
        | [] => []
        | c :: rest => c :: reSub f rep fuel rest

/-- Matcher for `TST\*` (a literal; the input is already upper-cased, so
`re.IGNORECASE` is moot for all eight patterns). -/
def tryTST (l : List Char) : Option (List Char) := stripLit ['T', 'S', 'T', '*'] l

/-- Matcher for `SQ\s*\*`: greedy whitespace between `SQ` and `*` needs no
backtracking since `*` is not whitespace. -/
def trySQ (l : List Char) : Option (List Char) :=
  match l with
  | 'S' :: 'Q' :: rest =>
      match rest.dropWhile pySpace with
      | '*' :: r2 => some r2
      | _ => none
  | _ => none

/-- Matcher for `PP\*`. -/
def tryPP (l : List Char) : Option (List Char) := stripLit ['P', 'P', '*'] l

/-- Matcher for `SP\s*\*`. -/
def trySP (l : List Char) : Option (List Char) :=
  match l with
  | 'S' :: 'P' :: rest =>
      match rest.dropWhile pySpace with
      | '*' :: r2 => some r2
      | _ => none
  | _ => none

/-- Matcher for `\s*#\d+`: greedy whitespace, `#`, at least one digit; the
greedy pieces are followed by characters disjoint from them, so greedy
matching without backtracking is exact. -/
def tryHashNum (l : List Char) : Option (List Char) :=
  match l.dropWhile pySpace with
  | '#' :: r2 =>
      if (r2.takeWhile Char.isDigit).isEmpty then none
      else some (r2.dropWhile Char.isDigit)
  | _ => none

/-- Matcher for `\s+STORE\s+\d+`. -/
def tryStoreNum (l : List Char) : Option (List Char) :=
  match l with
  | c :: _ =>
      if pySpace c then
        match stripLit ['S', 'T', 'O', 'R', 'E'] (l.dropWhile pySpace) with
        | none => none
        | some r2 =>
            if (r2.takeWhile pySpace).isEmpty then none
            else
              let r3 := r2.dropWhile pySpace
              if (r3.takeWhile Char.isDigit).isEmpty then none
              else some (r3.dropWhile Char.isDigit)
      else none
  | [] => none

/-- Matcher for `\s{2,}` (used with replacement `" "`): a run of at least two
whitespace characters, taken greedily. -/
def tryWsRun (l : List Char) : Option (List Char) :=
  match l with
  | c :: d :: _ =>
      if pySpace c && pySpace d then some (l.dropWhile pySpace) else none
  | _ => none

/-- `re.sub(r"\s+\d{3,5}\s*$", "", s)`: anchored at the end, so at most one
match exists: optional trailing whitespace, preceded by a maximal run of 3 to
5 digits (a longer run cannot match, because the character before the matched
digits would have to be whitespace), preceded by at least one whitespace
character; the leftmost match start is the beginning of that whitespace run,
and the whole match is removed. -/
def subTrailNum (l : List Char) : List Char :=
  let rev := l.reverse
  let r1 := rev.dropWhile pySpace
  let ds := r1.takeWhile Char.isDigit
  let r2 := r1.dropWhile Char.isDigit
  if 3 ≤ ds.length && ds.length ≤ 5 && !(r2.takeWhile pySpace).isEmpty then
    (r2.dropWhile pySpace).reverse
  else l

/-- Embedding of `_clean_descriptor`
(`src/api/app/services/vendor_normalize.py`, lines 32-51): upper-case and
strip, apply the eight `CLEANUP_PATTERNS` substitutions in order, strip again.
(The `lru_cache` memoization has no observable effect on a pure function.) -/
def _clean_descriptor (s : String) : String :=
  let cs := stripChars (s.toList.map Char.toUpper)
  let cs := reSub tryTST [] cs.length cs
  let cs := reSub trySQ [] cs.length cs
  let cs := reSub tryPP [] cs.length cs
  let cs := reSub trySP [] cs.length cs
  let cs := reSub tryHashNum [] cs.length cs
  let cs := reSub tryStoreNum [] cs.length cs
  let cs := subTrailNum cs
  let cs := reSub tryWsRun [' '] cs.length cs
  String.mk (stripChars cs)

/-- The `txn_dict` prepared by `ingest_transaction`
(`src/api/app/routers/ingest.py`, lines 113-125): the inserted values; the
accompanying `status` value is the constant `"ingested"`. -/
structure TxnUpsertValues where
  txn_date : Int
  amount_cents : Int
  currency : String
  direction : String
  raw_descriptor : String
  canonical_vendor : Option String
  mcc : Option String
  memo : Option String
  source_account : String
  hash_id : String

/-- The `on_conflict_do_update` SET clause (lines 129-142): exactly the nine
listed columns are overwritten from the excluded row; `status`, `category`,
`subcategory`, `confidence`, `receipt_url` and `notes` are not in the SET
clause and keep their stored values. -/
def conflictUpdate (r : Transaction) (d : TxnUpsertValues) : Transaction :=
  { r with
    txn_date := d.txn_date
    amount_cents := d.amount_cents
    currency := d.currency
    direction := d.direction
    raw_descriptor := d.raw_descriptor
    canonical_vendor := d.canonical_vendor
    mcc := d.mcc
    memo := d.memo
    source_account := d.source_account }

/-- The row created when no `hash_id` conflict exists: the inserted values
plus the column defaults of `src/api/app/models.py`. -/
def insertNewRow (d : TxnUpsertValues) (newId : Int) : Transaction :=
  { id := newId, txn_date := d.txn_date, amount_cents := d.amount_cents,
    currency := d.currency, direction := d.direction,
    raw_descriptor := d.raw_descriptor, canonical_vendor := d.canonical_vendor,
    mcc := d.mcc, memo := d.memo, source_account := d.source_account,
    hash_id := d.hash_id, receipt_url := none, category := none,
    subcategory := none, confidence := none, status := "ingested", notes := none }

/-- Embedding of the upsert of `ingest_transaction` against a table with a
unique `hash_id` index: on conflict the matching row is updated in place via
the SET clause, otherwise a fresh row is appended. -/
def ingest_upsert (db : List Transaction) (d : TxnUpsertValues) (newId : Int) :
    List Transaction :=
  if db.any (fun r => r.hash_id == d.hash_id) then
    db.map (fun r => if r.hash_id == d.hash_id then conflictUpdate r d else r)
  else db ++ [insertNewRow d newId]

/-- A sample transaction (the `sample_transaction` fixture of the test suite:
`STARBUCKS 1234`, MCC 5814, 784 cents, debit on `amex_blue_cash`). -/
def sampleTxn : Transaction :=
  { id := 1, txn_date := 20251024, amount_cents := 784, currency := "USD",
    direction := "debit", raw_descriptor := "STARBUCKS 1234",
    canonical_vendor := some "Starbucks", mcc := some "5814", memo := none,
    source_account := "amex_blue_cash", hash_id := "hash_sample",
    receipt_url := none, category := none, subcategory := none,
    confidence := none, status := "ingested", notes := none }

/-- An active rule whose regex pattern is malformed, at the best priority. -/
def badRegexRule : Rule :=
  { id := 1, priority := 1, condition := Cond.regex RegexPattern.malformed,
    action := { category := "Broken", subcategory := none }, active := true }

/-- An active `contains` rule matching `sampleTxn` at priority 2. -/
def starbucksRule : Rule :=
  { id := 2, priority := 2, condition := Cond.contains "STARBUCKS",
    action := { category := "Dining", subcategory := some "Coffee" }, active := true }

/-- An active `contains` rule matching `sampleTxn` at priority 100. -/
def lowPriorityRule : Rule :=
  { id := 3, priority := 100, condition := Cond.contains "STARBUCKS",
    action := { category := "Low", subcategory := none }, active := true }

/-- An inactive rule matching `sampleTxn` at the best priority. -/
def inactiveRule : Rule :=
  { id := 4, priority := 0, condition := Cond.contains "STARBUCKS",
    action := { category := "Inactive", subcategory := none }, active := false }

/-- The z-score scenario of the specification: one category holding five
in-window transactions with amounts `[100, 100, 100, 100, 10000]`. -/
def zScenario : List Transaction :=
  [ { sampleTxn with id := 11, amount_cents := 100, category := some "Dining" },
    { sampleTxn with id := 12, amount_cents := 100, category := some "Dining" },
    { sampleTxn with id := 13, amount_cents := 100, category := some "Dining" },
    { sampleTxn with id := 14, amount_cents := 100, category := some "Dining" },
    { sampleTxn with id := 15, amount_cents := 10000, category := some "Dining" } ]

/-- A sample alert, used to exhibit alerts of non-failing passes being lost. -/
def sampleAlert : Alert :=
  { type := "low_confidence", vendor := some "Starbucks", category := some "Dining",
    amount_cents := 784, date := 20251024, severity := "warning" }

/-- Values re-ingested for the row `sampleTxn` (same `hash_id`, fresh fields). -/
def reingestValues : TxnUpsertValues :=
  { txn_date := 20251025, amount_cents := 900, currency := "USD",
    direction := "debit", raw_descriptor := "STARBUCKS 5678",
    canonical_vendor := some "Starbucks", mcc := some "5814", memo := some "re-run",
    source_account := "amex_blue_cash", hash_id := "hash_sample" }

/-- A categorized, finalized row with the same `hash_id` as `reingestValues`. -/
def finalizedRow : Transaction :=
  { sampleTxn with
    category := some "Dining"
    subcategory := some "Coffee"
    confidence := some 1
    status := "finalized"
    receipt_url := some "https://drive.example/receipt"
    notes := some "checked" }

/-- An active `contains` rule matching `sampleTxn` at priority 1. -/
def priorityOneRule : Rule :=
  { id := 5, priority := 1, condition := Cond.contains "STAR",
    action := { category := "High", subcategory := none }, active := true }

/-- Six transactions of one category with amounts
`[100, 100, 100, 100, 100, 10000]`: here the outlier's z-score strictly
exceeds 2, so the z-score pass does flag it. -/
def zSixTxns : List Transaction :=
  [ { sampleTxn with id := 21, amount_cents := 100, category := some "Dining" },
    { sampleTxn with id := 22, amount_cents := 100, category := some "Dining" },
    { sampleTxn with id := 23, amount_cents := 100, category := some "Dining" },
    { sampleTxn with id := 24, amount_cents := 100, category := some "Dining" },
    { sampleTxn with id := 25, amount_cents := 100, category := some "Dining" },
    { sampleTxn with id := 26, amount_cents := 10000, category := some "Dining" } ]

/-- The outlier among `zSixTxns`. -/
def zBigTxn : Transaction :=
  { sampleTxn with id := 26, amount_cents := 10000, category := some "Dining" }

/-- C1: the claim states that for every transaction `t`,
`evaluate(t, {and: []})` is `True`, `evaluate(t, {or: []})` is `False`, and
neither call raises.  On the code, both calls raise: the empty list is falsy,
so `condition.get("and") or condition.get("all")` yields `None` and iterating
it raises `TypeError`.  The intended vacuous-truth semantics is visible in the
`all`/`any` alias branches, where the same expression yields the empty list
and `all([])`/`any([])` give `True`/`False`; the `and`/`or` branches deviate
from it only through the falsy-coalescing slip. -/
theorem evaluate_condition_empty_and_or :
    evaluate_condition sampleTxn (Cond.and []) = Except.error EvalErr.typeErr ∧
    evaluate_condition sampleTxn (Cond.or []) = Except.error EvalErr.typeErr ∧
    evaluate_condition sampleTxn (Cond.all []) = Except.ok true ∧
    evaluate_condition sampleTxn (Cond.any []) = Except.ok false :=
  ⟨rfl, rfl, rfl, rfl⟩

/-- C6: the status decision is `review` exactly when the confidence is
strictly below the low-confidence threshold or the amount strictly exceeds
the review-amount threshold, and `finalized` otherwise; in particular a
confidence exactly at the threshold with an amount at or below the
review-amount threshold yields `finalized`. -/
theorem decideStatus_boundary (low : ℚ) (ra : Int) (conf : ℚ) (amt : Int) :
    (decideStatus low ra conf amt = "review" ↔ (conf < low ∨ amt > ra)) ∧
    (decideStatus low ra conf amt = "finalized" ↔ ¬(conf < low ∨ amt > ra)) ∧
    (conf = low → amt ≤ ra → decideStatus low ra conf amt = "finalized") := by
  have hrf : ("review" : String) ≠ "finalized" := by decide
  by_cases h : conf < low ∨ amt > ra
  · have hd : decideStatus low ra conf amt = "review" := by
      unfold decideStatus needs_review
      simp [h]
    refine ⟨?_, ?_, ?_⟩
    · rw [hd]; exact ⟨fun _ => h, fun _ => rfl⟩
    · rw [hd]; exact ⟨fun hc => absurd hc hrf, fun hn => absurd h hn⟩
    · intro hc ha
      rcases h with h1 | h2
      · rw [hc] at h1; exact absurd h1 (lt_irrefl low)
      · exact absurd h2 (not_lt.mpr ha)
  · have hd : decideStatus low ra conf amt = "finalized" := by
      unfold decideStatus needs_review
      simp [h]
    refine ⟨?_, ?_, ?_⟩
    · rw [hd]; exact ⟨fun hc => absurd hc.symm hrf, fun hh => absurd hh h⟩
    · rw [hd]; exact ⟨fun _ => h, fun _ => rfl⟩
    · intro _ _; exact hd

/-- C6 witness: at the default thresholds (low confidence 0.80, review amount
5000 cents), confidence exactly 0.80 with amount 784 yields `finalized`. -/
theorem decideStatus_boundary_witness :
    decideStatus (4/5) 5000 (4/5) 784 = "finalized" :=
  (decideStatus_boundary (4/5) 5000 (4/5) 784).2.2 rfl (by decide)

/-- C8 counterexample: the claim states that whenever exactly one of the six
passes raises, `detect_anomalies` still returns the concatenation of the
other five passes' alerts, for each of the six passes.  With the new-vendor
pass raising and the pending-review pass holding one alert, the claimed
result would be `.ok [sampleAlert]`; the code instead propagates the
exception. -/
theorem detect_anomalies_new_vendor_error_aborts :
    detect_anomalies (PassResult.raises []) (PassResult.ok []) (PassResult.ok [])
        (PassResult.ok []) (PassResult.ok []) (PassResult.ok [sampleAlert])
      = Except.error () ∧
    detect_anomalies (PassResult.raises []) (PassResult.ok []) (PassResult.ok [])
        (PassResult.ok []) (PassResult.ok []) (PassResult.ok [sampleAlert])
      ≠ Except.ok [sampleAlert] :=
  ⟨rfl, fun hcontra => Except.noConfusion hcontra⟩

/-- C8 amended: exception isolation holds only for the two passes whose whole
body sits in a `try/except` (`_detect_zscore_outliers` and
`_detect_unusual_spending`): each contributes the alerts accumulated before
the exception (the empty list when it fails at once) and the remaining passes'
alerts are concatenated.  An exception in any of the other four passes
(new-vendor, duplicate, missing-receipt, pending-review) propagates out of
`detect_anomalies`, which logs and re-raises. -/
theorem detect_anomalies_isolation (l1 l2 l3 l4 l5 l6 p : List Alert) :
    (detect_anomalies (PassResult.ok l1) (PassResult.ok l2) (PassResult.raises p)
        (PassResult.ok l4) (PassResult.ok l5) (PassResult.ok l6)
      = Except.ok (l1 ++ l2 ++ p ++ l4 ++ l5 ++ l6)) ∧
    (detect_anomalies (PassResult.ok l1) (PassResult.ok l2) (PassResult.ok l3)
        (PassResult.raises p) (PassResult.ok l5) (PassResult.ok l6)
      = Except.ok (l1 ++ l2 ++ l3 ++ p ++ l5 ++ l6)) ∧
    (detect_anomalies (PassResult.raises p) (PassResult.ok l2) (PassResult.ok l3)
        (PassResult.ok l4) (PassResult.ok l5) (PassResult.ok l6) = Except.error ()) ∧
    (detect_anomalies (PassResult.ok l1) (PassResult.raises p) (PassResult.ok l3)
        (PassResult.ok l4) (PassResult.ok l5) (PassResult.ok l6) = Except.error ()) ∧
    (detect_anomalies (PassResult.ok l1) (PassResult.ok l2) (PassResult.ok l3)
        (PassResult.ok l4) (PassResult.raises p) (PassResult.ok l6) = Except.error ()) ∧
    (detect_anomalies (PassResult.ok l1) (PassResult.ok l2) (PassResult.ok l3)
        (PassResult.ok l4) (PassResult.ok l5) (PassResult.raises p) = Except.error ()) :=
  ⟨rfl, rfl, rfl, rfl, rfl, rfl⟩

/-- C9 counterexample: descriptor cleaning is not idempotent on the result of
cleaning: `_clean_descriptor "A 123 456" = "A 123"` (the anchored
trailing-number pattern removes only the last 3-to-5-digit group), and
cleaning that result again strips the newly trailing group, giving `"A"`. -/
theorem clean_descriptor_not_idempotent :
    _clean_descriptor (_clean_descriptor "A 123 456") ≠ _clean_descriptor "A 123 456" := by
  decide

/-- C9 amended: descriptor cleaning is deterministic, but a second cleaning
can strip a further trailing 3-to-5-digit group, so idempotence fails in
general (`clean "A 123 456" = "A 123"` while `clean "A 123" = "A"`); cleaning
a string that cleaning leaves unchanged is (trivially) stable. -/
theorem clean_descriptor_trailing_groups :
    _clean_descriptor "A 123 456" = "A 123" ∧
    _clean_descriptor "A 123" = "A" ∧
    (∀ s : String, _clean_descriptor s = s →
      _clean_descriptor (_clean_descriptor s) = _clean_descriptor s) :=
  ⟨by decide, by decide, fun s h => by rw [h]; exact h⟩

/-- C9 witness: `"A"` is a fixed point of cleaning, and cleaning it twice
agrees with cleaning it once. -/
theorem clean_descriptor_trailing_groups_witness :
    _clean_descriptor (_clean_descriptor "A") = _clean_descriptor "A" :=
  clean_descriptor_trailing_groups.2.2 "A" (by decide)

/-- C10: re-ingesting values whose `hash_id` matches an existing row updates
that row in place — no new row is created — and the SET clause overwrites
exactly `txn_date`, `amount_cents`, `currency`, `direction`,
`raw_descriptor`, `canonical_vendor`, `mcc`, `memo` and `source_account`,
while `category`, `subcategory`, `confidence`, `status`, `receipt_url` and
`notes` keep their stored values; rows with other hashes are untouched. -/
theorem ingest_upsert_frame (db : List Transaction) (d : TxnUpsertValues)
    (newId : Int) (r : Transaction) (hr : r ∈ db) (hh : r.hash_id = d.hash_id) :
    (ingest_upsert db d newId).length = db.length ∧
    conflictUpdate r d ∈ ingest_upsert db d newId ∧
    (conflictUpdate r d).category = r.category ∧
    (conflictUpdate r d).subcategory = r.subcategory ∧
    (conflictUpdate r d).confidence = r.confidence ∧
    (conflictUpdate r d).status = r.status ∧
    (conflictUpdate r d).receipt_url = r.receipt_url ∧
    (conflictUpdate r d).notes = r.notes ∧
    (conflictUpdate r d).txn_date = d.txn_date ∧
    (conflictUpdate r d).amount_cents = d.amount_cents ∧
    (conflictUpdate r d).currency = d.currency ∧
    (conflictUpdate r d).direction = d.direction ∧
    (conflictUpdate r d).raw_descriptor = d.raw_descriptor ∧
    (conflictUpdate r d).canonical_vendor = d.canonical_vendor ∧
    (conflictUpdate r d).mcc = d.mcc ∧
    (conflictUpdate r d).memo = d.memo ∧
    (conflictUpdate r d).source_account = d.source_account ∧
    (∀ r2 ∈ db, r2.hash_id ≠ d.hash_id → r2 ∈ ingest_upsert db d newId) := by
  have hany : (db.any (fun x => x.hash_id == d.hash_id)) = true :=
    List.any_eq_true.mpr ⟨r, hr, by simp [hh]⟩
  have hup : ingest_upsert db d newId =
      db.map (fun x => if x.hash_id == d.hash_id then conflictUpdate x d else x) := by
    unfold ingest_upsert
    rw [if_pos hany]
  refine ⟨?_, ?_, rfl, rfl, rfl, rfl, rfl, rfl, rfl, rfl, rfl, rfl, rfl, rfl, rfl, rfl, rfl, ?_⟩
  · rw [hup, List.length_map]
  · rw [hup]
    refine List.mem_map.mpr ⟨r, hr, ?_⟩
    rw [if_pos (by simp [hh])]
  · intro r2 hr2 hne
    rw [hup]
    refine List.mem_map.mpr ⟨r2, hr2, ?_⟩
    rw [if_neg (by simp [hne])]

/-- C10 witness: re-ingesting over a finalized, categorized, receipt-bearing
row keeps its categorization fields while refreshing the ingest fields. -/
theorem ingest_upsert_frame_witness :
    (ingest_upsert [finalizedRow] reingestValues 99).length = 1 ∧
    conflictUpdate finalizedRow reingestValues ∈ ingest_upsert [finalizedRow] reingestValues 99 ∧
    (conflictUpdate finalizedRow reingestValues).category = finalizedRow.category ∧
    (conflictUpdate finalizedRow reingestValues).subcategory = finalizedRow.subcategory ∧
    (conflictUpdate finalizedRow reingestValues).confidence = finalizedRow.confidence ∧
    (conflictUpdate finalizedRow reingestValues).status = finalizedRow.status ∧
    (conflictUpdate finalizedRow reingestValues).receipt_url = finalizedRow.receipt_url ∧
    (conflictUpdate finalizedRow reingestValues).notes = finalizedRow.notes ∧
    (conflictUpdate finalizedRow reingestValues).txn_date = reingestValues.txn_date ∧
    (conflictUpdate finalizedRow reingestValues).amount_cents = reingestValues.amount_cents ∧
    (conflictUpdate finalizedRow reingestValues).currency = reingestValues.currency ∧
    (conflictUpdate finalizedRow reingestValues).direction = reingestValues.direction ∧
    (conflictUpdate finalizedRow reingestValues).raw_descriptor = reingestValues.raw_descriptor ∧
    (conflictUpdate finalizedRow reingestValues).canonical_vendor = reingestValues.canonical_vendor ∧
    (conflictUpdate finalizedRow reingestValues).mcc = reingestValues.mcc ∧
    (conflictUpdate finalizedRow reingestValues).memo = reingestValues.memo ∧
    (conflictUpdate finalizedRow reingestValues).source_account = reingestValues.source_account ∧
    (∀ r2 ∈ [finalizedRow], r2.hash_id ≠ reingestValues.hash_id →
      r2 ∈ ingest_upsert [finalizedRow] reingestValues 99) := by
  have h := ingest_upsert_frame [finalizedRow] reingestValues 99 finalizedRow
    (by simp) rfl
  simpa using h

theorem clampConfidence_nonneg (c : ℚ) : 0 ≤ clampConfidence c := le_max_left 0 _

theorem clampConfidence_le_one (c : ℚ) : clampConfidence c ≤ 1 :=
  max_le zero_le_one (min_le_left 1 c)

theorem clampConfidence_of_range (c : ℚ) (h : 0 ≤ c ∧ c ≤ 1) : clampConfidence c = c := by
  unfold clampConfidence
  rw [min_eq_right h.2, max_eq_right h.1]

theorem clampConfidence_idem (c : ℚ) : clampConfidence (clampConfidence c) = clampConfidence c :=
  clampConfidence_of_range _ ⟨clampConfidence_nonneg c, clampConfidence_le_one c⟩

/-- C5: for every parsed classifier response carrying a (truthy) category and
a numeric confidence, the stored confidence is the input clamped to `[0, 1]`,
and a category outside `TAXONOMY` is overridden to `"Shopping"` with the
confidence forced to exactly 0.50, whatever the classifier reported; the
clamp is bounded and sends 1.5 to exactly 1 and -0.2 to exactly 0.  (A
response with an absent or empty `category` follows the missing-field error
path instead, hence the `cat ≠ ""` hypothesis.) -/
theorem processResponse_validation (cat : String) (sub vend : Option String)
    (conf : ℚ) (hcat : cat ≠ "") :
    processResponse { category := some cat, subcategory := sub,
                      confidence := some conf, vendor := vend } =
      (if cat ∈ TAXONOMY then
        Except.ok { category := cat, subcategory := sub,
                    confidence := clampConfidence conf, vendor := vend }
      else
        Except.ok { category := "Shopping", subcategory := sub,
                    confidence := 1/2, vendor := vend }) ∧
    0 ≤ clampConfidence conf ∧ clampConfidence conf ≤ 1 ∧
    clampConfidence (3/2) = 1 ∧ clampConfidence (-(1/5)) = 0 := by
  refine ⟨?_, clampConfidence_nonneg conf, clampConfidence_le_one conf, ?_, ?_⟩
  · have hpp : parse_openai_response
        { category := some cat, subcategory := sub, confidence := some conf, vendor := vend } =
        { category := some cat, subcategory := sub,
          confidence := some (if 0 ≤ conf ∧ conf ≤ 1 then conf else clampConfidence conf),
          vendor := vend } := by
      unfold parse_openai_response
      by_cases hr : 0 ≤ conf ∧ conf ≤ 1
      · simp [hr]
      · simp [hr]
    unfold processResponse
    rw [hpp]
    simp only [Option.getD_some, if_neg hcat]
    by_cases hr : 0 ≤ conf ∧ conf ≤ 1
    · rw [if_pos hr]
    · rw [if_neg hr, clampConfidence_idem]
  · unfold clampConfidence
    rw [min_eq_left (by norm_num), max_eq_right zero_le_one]
  · unfold clampConfidence
    rw [min_eq_right (by norm_num), max_eq_left (by norm_num)]

/-- C5 witness: confidence 1.5 is stored as exactly 1 and -0.2 as exactly 0
for an in-taxonomy category, and the unknown category `"InvalidX"` reported
at confidence 0.9 is stored as `"Shopping"` at exactly 0.50. -/
theorem processResponse_validation_witness :
    processResponse { category := some "Dining", subcategory := none,
                      confidence := some (3/2), vendor := none } =
      Except.ok { category := "Dining", subcategory := none,
                  confidence := 1, vendor := none } ∧
    processResponse { category := some "Dining", subcategory := none,
                      confidence := some (-(1/5)), vendor := none } =
      Except.ok { category := "Dining", subcategory := none,
                  confidence := 0, vendor := none } ∧
    processResponse { category := some "InvalidX", subcategory := none,
                      confidence := some (9/10), vendor := none } =
      Except.ok { category := "Shopping", subcategory := none,
                  confidence := 1/2, vendor := none } := by
  refine ⟨?_, ?_, ?_⟩
  · have h := (processResponse_validation "Dining" none none (3/2) (by decide)).1
    have hc := (processResponse_validation "Dining" none none (3/2) (by decide)).2.2.2.1
    rw [if_pos (by decide), hc] at h
    exact h
  · have h := (processResponse_validation "Dining" none none (-(1/5)) (by decide)).1
    have hc := (processResponse_validation "Dining" none none (-(1/5)) (by decide)).2.2.2.2
    rw [if_pos (by decide), hc] at h
    exact h
  · have h := (processResponse_validation "InvalidX" none none (9/10) (by decide)).1
    rw [if_neg (by decide)] at h
    exact h

/-- C4: the retry loop of `categorize_with_openai` over the outcomes of its
attempts: if every attempt times out, the exhausted call raises the timeout
error; if every attempt fails with an unparseable body or a generic API
error, the exhausted call returns the fixed default result (`"Shopping"` /
`"Uncategorized"` at confidence 0.30, vendor the canonical vendor or else the
raw descriptor); if every attempt hits the rate limit, the rate-limit error
is re-raised. -/
theorem categorize_with_openai_exhaustion (t : Transaction)
    (outs : List AttemptOutcome) (hne : outs ≠ []) :
    ((∀ o ∈ outs, o = AttemptOutcome.timeout) →
      categorize_with_openai t outs = Except.error OpenAIFailure.timeoutExhausted) ∧
    ((∀ o ∈ outs, o = AttemptOutcome.jsonError ∨ o = AttemptOutcome.apiError) →
      categorize_with_openai t outs = Except.ok (defaultAIResult t)) ∧
    ((∀ o ∈ outs, o = AttemptOutcome.rateLimit) →
      categorize_with_openai t outs = Except.error OpenAIFailure.rateLimited) ∧
    defaultAIResult t = { category := "Shopping", subcategory := some "Uncategorized",
                          confidence := 3/10,
                          vendor := some (pyStrOr t.canonical_vendor t.raw_descriptor) } := by
  induction outs with
  | nil => exact absurd rfl hne
  | cons o rest ih =>
      cases rest with
      | nil =>
          refine ⟨?_, ?_, ?_, rfl⟩
          · intro hall
            have ho := hall o (by simp)
            subst ho
            rfl
          · intro hall
            rcases hall o (by simp) with ho | ho <;> subst ho <;> rfl
          · intro hall
            have ho := hall o (by simp)
            subst ho
            rfl
      | cons o2 rest2 =>
          have ih2 := ih (by simp)
          refine ⟨?_, ?_, ?_, rfl⟩
          · intro hall
            have ho := hall o (by simp)
            subst ho
            exact ih2.1 (fun x hx => hall x (List.mem_cons_of_mem _ hx))
          · intro hall
            have hrest := ih2.2.1 (fun x hx => hall x (List.mem_cons_of_mem _ hx))
            rcases hall o (by simp) with ho | ho <;> subst ho <;> exact hrest
          · intro hall
            have ho := hall o (by simp)
            subst ho
            exact ih2.2.2.1 (fun x hx => hall x (List.mem_cons_of_mem _ hx))

/-- C4 witness: with three attempts, all-timeouts raises the timeout error,
a mix of JSON and API failures returns the fixed default, and all-rate-limits
re-raises the rate-limit error. -/
theorem categorize_with_openai_exhaustion_witness :
    categorize_with_openai sampleTxn
        [AttemptOutcome.timeout, AttemptOutcome.timeout, AttemptOutcome.timeout] =
      Except.error OpenAIFailure.timeoutExhausted ∧
    categorize_with_openai sampleTxn
        [AttemptOutcome.jsonError, AttemptOutcome.apiError, AttemptOutcome.jsonError] =
      Except.ok (defaultAIResult sampleTxn) ∧
    categorize_with_openai sampleTxn
        [AttemptOutcome.rateLimit, AttemptOutcome.rateLimit, AttemptOutcome.rateLimit] =
      Except.error OpenAIFailure.rateLimited :=
  ⟨(categorize_with_openai_exhaustion sampleTxn _ (by simp)).1 (by simp),
   (categorize_with_openai_exhaustion sampleTxn _ (by simp)).2.1 (by simp),
   (categorize_with_openai_exhaustion sampleTxn _ (by simp)).2.2.1 (by simp)⟩

theorem findAction_eq_none (t : Transaction) (l : List Rule) :
    findAction t l = none ↔ ∀ r ∈ l, evaluate_condition t r.condition ≠ Except.ok true := by
  induction l with
  | nil => simp [findAction]
  | cons r rs ih =>
      cases he : evaluate_condition t r.condition with
      | error e =>
          simp only [findAction, he]
          rw [ih]
          constructor
          · intro h r2 hr2
            rcases List.mem_cons.mp hr2 with h2 | h2
            · subst h2; rw [he]; simp
            · exact h r2 h2
          · intro h r2 hr2
            exact h r2 (List.mem_cons_of_mem _ hr2)
      | ok b =>
          cases b with
          | false =>
              simp only [findAction, he]
              rw [ih]
              constructor
              · intro h r2 hr2
                rcases List.mem_cons.mp hr2 with h2 | h2
                · subst h2; rw [he]; simp
                · exact h r2 h2
              · intro h r2 hr2
                exact h r2 (List.mem_cons_of_mem _ hr2)
          | true =>
              simp only [findAction, he]
              constructor
              · intro hcontra; exact absurd hcontra (by simp)
              · intro h; exact absurd he (h r (by simp))

theorem findAction_some_min (t : Transaction) :
    ∀ (l : List Rule), List.Sorted rulePriorityLE l → ∀ a, findAction t l = some a →
      ∃ r, r ∈ l ∧ evaluate_condition t r.condition = Except.ok true ∧ a = r.action ∧
        ∀ r2 ∈ l, evaluate_condition t r2.condition = Except.ok true →
          r.priority ≤ r2.priority := by
  intro l
  induction l with
  | nil => intro _ a h; simp [findAction] at h
  | cons r rs ih =>
      intro hs a h
      have hs2 := List.sorted_cons.mp hs
      cases he : evaluate_condition t r.condition with
      | ok b =>
          cases b with
          | true =>
              have ha : a = r.action := by
                simp only [findAction, he, Option.some.injEq] at h
                exact h.symm
              refine ⟨r, by simp, he, ha, ?_⟩
              intro r2 hr2 _
              rcases List.mem_cons.mp hr2 with h2 | h2
              · subst h2; exact le_refl _
              · exact hs2.1 r2 h2
          | false =>
              have h2 : findAction t rs = some a := by
                simp only [findAction, he] at h; exact h
              obtain ⟨rr, hmem, hev, ha, hmin⟩ := ih hs2.2 a h2
              refine ⟨rr, List.mem_cons_of_mem _ hmem, hev, ha, ?_⟩
              intro r2 hr2 hev2
              rcases List.mem_cons.mp hr2 with h3 | h3
              · subst h3; rw [he] at hev2; exact absurd hev2 (by simp)
              · exact hmin r2 h3 hev2
      | error e =>
          have h2 : findAction t rs = some a := by
            simp only [findAction, he] at h; exact h
          obtain ⟨rr, hmem, hev, ha, hmin⟩ := ih hs2.2 a h2
          refine ⟨rr, List.mem_cons_of_mem _ hmem, hev, ha, ?_⟩
          intro r2 hr2 hev2
          rcases List.mem_cons.mp hr2 with h3 | h3
          · subst h3; rw [he] at hev2; exact absurd hev2 (by simp)
          · exact hmin r2 h3 hev2

/-- C2: `apply_rules` considers only rules with `active = true` and returns
the action of a matching active rule of minimal priority among the active
rules whose condition evaluates to true (the sort is ascending by priority
and the scan stops at the first match); when no active rule matches, the
result is `none`, not an error.  The two-rule scenario of the claim
(priorities 1 and 100 both matching) is an instance: the returned action
belongs to a matching rule whose priority is at most every other matching
rule's. -/
theorem apply_rules_priority (t : Transaction) (rules : List Rule) :
    (apply_rules t rules = none ↔
      ∀ r ∈ rules, r.active = true → evaluate_condition t r.condition ≠ Except.ok true) ∧
    (∀ a, apply_rules t rules = some a →
      ∃ r, r ∈ rules ∧ r.active = true ∧ evaluate_condition t r.condition = Except.ok true ∧
        a = r.action ∧
        ∀ r2 ∈ rules, r2.active = true → evaluate_condition t r2.condition = Except.ok true →
          r.priority ≤ r2.priority) := by
  have hperm : List.Perm
      (List.insertionSort rulePriorityLE (rules.filter (fun r => r.active)))
      (rules.filter (fun r => r.active)) := List.perm_insertionSort _ _
  have hmem : ∀ r : Rule,
      r ∈ List.insertionSort rulePriorityLE (rules.filter (fun x => x.active)) ↔
        (r ∈ rules ∧ r.active = true) := by
    intro r
    rw [hperm.mem_iff, List.mem_filter]
  have hsort : List.Sorted rulePriorityLE
      (List.insertionSort rulePriorityLE (rules.filter (fun x => x.active))) :=
    List.sorted_insertionSort _ _
  constructor
  · unfold apply_rules
    rw [findAction_eq_none]
    constructor
    · intro h r hr hact
      exact h r ((hmem r).mpr ⟨hr, hact⟩)
    · intro h r hr
      exact h r ((hmem r).mp hr).1 ((hmem r).mp hr).2
  · intro a ha
    obtain ⟨r, hmem2, hev, haa, hmin⟩ := findAction_some_min t _ hsort a ha
    obtain ⟨hr, hact⟩ := (hmem r).mp hmem2
    exact ⟨r, hr, hact, hev, haa,
      fun r2 h2 ha2 he2 => hmin r2 ((hmem r2).mpr ⟨h2, ha2⟩) he2⟩

/-- C2 witness: with an active matching rule at priority 100, an active
matching rule at priority 1 and an inactive matching rule at priority 0, the
engine returns the priority-1 action, and that action belongs to an active
matching rule of minimal priority among the active matching rules. -/
theorem apply_rules_priority_witness :
    apply_rules sampleTxn [lowPriorityRule, priorityOneRule, inactiveRule] =
      some { category := "High", subcategory := none } ∧
    (∃ r, r ∈ [lowPriorityRule, priorityOneRule, inactiveRule] ∧ r.active = true ∧
      evaluate_condition sampleTxn r.condition = Except.ok true ∧
      ({ category := "High", subcategory := none } : RuleAction) = r.action ∧
      ∀ r2 ∈ [lowPriorityRule, priorityOneRule, inactiveRule], r2.active = true →
        evaluate_condition sampleTxn r2.condition = Except.ok true →
          r.priority ≤ r2.priority) :=
  ⟨rfl, (apply_rules_priority sampleTxn [lowPriorityRule, priorityOneRule, inactiveRule]).2
    { category := "High", subcategory := none } rfl⟩

theorem findAction_orderedInsert_skip (t : Transaction) (r : Rule) (e : EvalErr)
    (he : evaluate_condition t r.condition = Except.error e) :
    ∀ l : List Rule,
      findAction t (List.orderedInsert rulePriorityLE r l) = findAction t l := by
  intro l
  induction l with
  | nil => simp [List.orderedInsert, findAction, he]
  | cons b bs ih =>
      unfold List.orderedInsert
      by_cases hle : rulePriorityLE r b
      · rw [if_pos hle]
        simp only [findAction, he]
      · rw [if_neg hle]
        cases hb : evaluate_condition t b.condition with
        | ok bb =>
            cases bb with
            | true => simp only [findAction, hb]
            | false =>
                simp only [findAction, hb]
                exact ih
        | error e2 =>
            simp only [findAction, hb]
            exact ih

/-- C3: evaluating a `regex` condition whose pattern is malformed raises the
condition error (it is propagated out of `evaluate_condition`, not
swallowed); and a rule whose condition evaluation raises is skipped by
`apply_rules` — removing it from the rule set does not change the result, so
a later matching rule's action is still returned and the rule pass does not
abort. -/
theorem condition_error_rule_skipped (t : Transaction) (r : Rule)
    (rules : List Rule) (e : EvalErr)
    (he : evaluate_condition t r.condition = Except.error e) :
    evaluate_condition t (Cond.regex RegexPattern.malformed) =
      Except.error EvalErr.invalidRegex ∧
    apply_rules t (r :: rules) = apply_rules t rules := by
  refine ⟨rfl, ?_⟩
  unfold apply_rules
  by_cases hact : r.active
  · have hfil : (r :: rules).filter (fun x => x.active) =
        r :: rules.filter (fun x => x.active) := by
      simp [List.filter, hact]
    rw [hfil, List.insertionSort]
    exact findAction_orderedInsert_skip t r e he _
  · have hfil : (r :: rules).filter (fun x => x.active) =
        rules.filter (fun x => x.active) := by
      simp [List.filter, hact]
    rw [hfil]

/-- C3 witness: a rule with a malformed regex at priority 1 is skipped, and
the matching `contains` rule at priority 2 still supplies the action. -/
theorem condition_error_rule_skipped_witness :
    evaluate_condition sampleTxn (Cond.regex RegexPattern.malformed) =
      Except.error EvalErr.invalidRegex ∧
    apply_rules sampleTxn [badRegexRule, starbucksRule] =
      apply_rules sampleTxn [starbucksRule] ∧
    apply_rules sampleTxn [badRegexRule, starbucksRule] =
      some { category := "Dining", subcategory := some "Coffee" } :=
  have h := condition_error_rule_skipped sampleTxn badRegexRule [starbucksRule]
    EvalErr.invalidRegex rfl
  ⟨h.1, h.2, rfl⟩

theorem zscenario_amounts :
    zScenario.map (fun t => t.amount_cents) = [100, 100, 100, 100, 10000] := by decide

theorem zscenario_mean : meanQ (zScenario.map (fun t => t.amount_cents)) = 2080 := by
  rw [zscenario_amounts]
  norm_num [meanQ]

theorem zscenario_var : popVar (zScenario.map (fun t => t.amount_cents)) = 15681600 := by
  rw [zscenario_amounts]
  norm_num [popVar, meanQ]

theorem zscenario_catAlerts : zscoreCategoryAlerts zScenario "Dining" 2 = [] := by
  unfold zscoreCategoryAlerts
  rw [if_neg (by rw [show zScenario.length = 5 from by decide]; exact lt_irrefl 5)]
  rw [if_neg (by rw [zscenario_var]; norm_num)]
  simp only [zscenario_mean, zscenario_var]
  refine List.filterMap_eq_nil_iff.mpr ?_
  intro t ht
  fin_cases ht <;> norm_num [devSq]

/-- C7 counterexample: the claim states that for a category whose five
in-window transactions have amounts `[100, 100, 100, 100, 10000]`, the 10000
transaction is flagged as a high-severity outlier.  On the code nothing is
flagged: the population standard deviation of those amounts is 3960 and the
mean 2080, so the 10000 transaction's z-score is `7920 / 3960 = 2.0` exactly,
and the comparison `z_score > 2.0` is strictly greater-than. -/
theorem zscore_scenario_not_flagged : detect_zscore_outliers zScenario 2 = [] := by
  unfold detect_zscore_outliers
  rw [show distinctCategories zScenario = ["Dining"] from by decide]
  show zscoreCategoryAlerts (catTxns zScenario "Dining") "Dining" 2 ++ [] = []
  rw [show catTxns zScenario "Dining" = zScenario from by decide,
    List.append_nil, zscenario_catAlerts]

/-- C7 amended: for each category with at least five in-window transactions
and nonzero population variance, a transaction is flagged by the z-score pass
exactly when its squared deviation from the category mean exceeds `4 ·
variance` (i.e. its |z-score| strictly exceeds 2.0), the emitted alert
carrying severity `"high"` when it exceeds `9 · variance` (|z| > 3.0) and
`"medium"` otherwise; in the claimed `[100, 100, 100, 100, 10000]` scenario
the squared deviation of the 10000 transaction equals `4 · variance` exactly
(z-score exactly 2.0), so no transaction is flagged at all — neither the
10000 one nor the 100 ones. -/
theorem zscore_flagging (ts : List Transaction) (c : String) (t : Transaction)
    (h5 : 5 ≤ ts.length)
    (hv : popVar (ts.map (fun x => x.amount_cents)) ≠ 0)
    (ht : t ∈ ts) :
    (devSq t.amount_cents (meanQ (ts.map (fun x => x.amount_cents))) >
        4 * popVar (ts.map (fun x => x.amount_cents)) ↔
      zAlert c t (meanQ (ts.map (fun x => x.amount_cents)))
          (popVar (ts.map (fun x => x.amount_cents))) ∈ zscoreCategoryAlerts ts c 2) ∧
    zscoreCategoryAlerts zScenario "Dining" 2 = [] ∧
    devSq 10000 (meanQ (zScenario.map (fun x => x.amount_cents))) =
      4 * popVar (zScenario.map (fun x => x.amount_cents)) := by
  refine ⟨?_, zscenario_catAlerts, ?_⟩
  · unfold zscoreCategoryAlerts
    rw [if_neg (not_lt.mpr h5), if_neg hv]
    have h4 : (2 : ℚ) * 2 * popVar (ts.map (fun x => x.amount_cents)) =
        4 * popVar (ts.map (fun x => x.amount_cents)) := by ring
    constructor
    · intro hgt
      refine List.mem_filterMap.mpr ⟨t, ht, ?_⟩
      rw [if_pos (by rw [h4]; exact hgt)]
    · intro hmem
      obtain ⟨x, hx, hfx⟩ := List.mem_filterMap.mp hmem
      by_cases hcond : devSq x.amount_cents (meanQ (ts.map (fun y => y.amount_cents))) >
          2 * 2 * popVar (ts.map (fun y => y.amount_cents))
      · rw [if_pos hcond] at hfx
        have hax : x.amount_cents = t.amount_cents := by
          have hfields := congrArg Alert.amount_cents (Option.some.inj hfx)
          simpa [zAlert] using hfields
        rw [hax] at hcond
        rw [← h4]
        exact hcond
      · rw [if_neg hcond] at hfx
        exact absurd hfx (by simp)
  · rw [zscenario_mean, zscenario_var]
    norm_num [devSq]

/-- C7 witness: with six transactions `[100 ×5, 10000]` in one category the
outlier's squared deviation (68062500) does exceed `4 · variance` (54450000,
z-score √5 ≈ 2.24), and the flagging equivalence applies to it; the scenario
conjuncts are closed facts. -/
theorem zscore_flagging_witness :
    (devSq zBigTxn.amount_cents (meanQ (zSixTxns.map (fun x => x.amount_cents))) >
        4 * popVar (zSixTxns.map (fun x => x.amount_cents)) ↔
      zAlert "Dining" zBigTxn (meanQ (zSixTxns.map (fun x => x.amount_cents)))
          (popVar (zSixTxns.map (fun x => x.amount_cents))) ∈
        zscoreCategoryAlerts zSixTxns "Dining" 2) ∧
    zscoreCategoryAlerts zScenario "Dining" 2 = [] ∧
    devSq 10000 (meanQ (zScenario.map (fun x => x.amount_cents))) =
      4 * popVar (zScenario.map (fun x => x.amount_cents)) :=
  zscore_flagging zSixTxns "Dining" zBigTxn (by decide)
    (by rw [show zSixTxns.map (fun x => x.amount_cents) =
          [100, 100, 100, 100, 100, 10000] from by decide]
        norm_num [popVar, meanQ])
    (by decide)
